import Mathlib

/-!
Verification of the configuration-access layer of the repository
(`src/utils/config.py`): a process-wide `Config` singleton that locates a
YAML file among three candidate paths, parses it once, and resolves
dot-separated key paths against the resulting nested mapping.

The Python code is shallowly embedded: parsed YAML values become the
inductive `Value`; the dictionary `self._config` and the class attributes
`_instance` / `_config` become an explicit `ConfigState`; the filesystem
becomes a function `String → Option Value` (path to parsed contents, `none`
when the path does not exist); filesystem side effects are recorded as an
explicit trace of `FSOp` operations.
-/

/-- A parsed YAML value (`yaml.safe_load` result): Python `None`, `bool`,
`int`, `str`, `list`, or `dict` with string keys.  Python dictionaries are
modelled as association lists looked up by first match. -/
inductive Value : Type where
  | VNull : Value
  | VBool : Bool → Value
  | VInt : Int → Value
  | VStr : String → Value
  | VList : List Value → Value
  | VDict : List (String × Value) → Value

open Value

/-- Python `value is None`. -/
def Value.isNull : Value → Bool
  | VNull => true
  | _ => false

/-- Python `isinstance(value, dict)`. -/
def Value.isDict : Value → Bool
  | VDict _ => true
  | _ => false

/-- First-match lookup in an association list: the lookup underlying a
Python dictionary access. -/
def assocLookup : List (String × Value) → String → Option Value
  | [], _ => none
  | (k, v) :: rest, key => if k = key then some v else assocLookup rest key

/-- Python `d.get(key, default)`: the stored value when the key is present,
otherwise the supplied default. -/
def dictGet (d : List (String × Value)) (key : String) (dflt : Value) : Value :=
  (assocLookup d key).getD dflt

/-- Accumulator loop for `splitDot`: collects characters of the current
segment (reversed) and emits a segment at each dot and at the end. -/
def splitDotAux : List Char → List Char → List String
  | [], acc => [String.mk acc.reverse]
  | c :: cs, acc =>
    if c = '.' then String.mk acc.reverse :: splitDotAux cs [] else splitDotAux cs (c :: acc)

/-- Python `path.split('.')`: splits on every dot; the empty string yields
a single empty segment, and adjacent dots yield empty segments. -/
def splitDot (s : String) : List String :=
  splitDotAux s.toList []

/-- The loop body of `Config.get` (src/utils/config.py lines 49-57): for
each key, return the default if the current value is not a dict, look the
key up with the default as fallback, return the default if the retrieved
value is `None`, otherwise continue; after the last key return the value. -/
def getGo : Value → List String → Value → Value
  | value, [], _ => value
  | value, key :: rest, dflt =>
    match value with
    | VDict d =>
      let v := dictGet d key dflt
      if v.isNull then dflt else getGo v rest dflt
    | _ => dflt

/-- `Config.get(path, default)`: split the path on dots and walk the
document.  The Python default argument `default=None` corresponds to
passing `VNull`. -/
def Config.get (config : Value) (path : String) (dflt : Value) : Value :=
  getGo config (splitDot path) dflt

/-- Python attribute call `value.get(key, default)` as a fallible
operation: on a non-dict receiver the attribute access would raise
(`AttributeError`); on a dict it is `dict.get`. -/
def methodGet : Value → String → Value → Except String Value
  | VDict d, key, dflt => Except.ok (dictGet d key dflt)
  | _, _, _ => Except.error "AttributeError"

/-- The `Config.get` loop with the fallible method call made explicit:
the `isinstance` guard runs before every `value.get` call, mirroring the
statement order of the source. -/
def getGoE : Value → List String → Value → Except String Value
  | value, [], _ => Except.ok value
  | value, key :: rest, dflt =>
    if value.isDict then
      match methodGet value key dflt with
      | Except.ok v => if v.isNull then Except.ok dflt else getGoE v rest dflt
      | Except.error e => Except.error e
    else Except.ok dflt

/-- `Config.get` in the fallible embedding. -/
def Config.getE (config : Value) (path : String) (dflt : Value) : Except String Value :=
  getGoE config (splitDot path) dflt

/-- Strict lookup of the value stored at a key sequence in a document:
`some v` when every segment is present as a mapping key all the way down,
`none` otherwise.  This is the reference notion of "the value stored at a
path", independent of any default substitution. -/
def storedAt : Value → List String → Option Value
  | v, [] => some v
  | VDict d, k :: rest =>
    match assocLookup d k with
    | some v => storedAt v rest
    | none => none
  | _, _ :: _ => none

/-- Every segment of the key sequence is present as a mapping key and every
retrieved value along the way (the final one included) is non-null. -/
def presentNonNull : Value → List String → Bool
  | _, [] => true
  | VDict d, k :: rest =>
    match assocLookup d k with
    | some v => !v.isNull && presentNonNull v rest
    | none => false
  | _, _ :: _ => false

/-- The traversal proceeds through present non-null mapping entries until a
step where the current mapping lacks the segment key. -/
def absentAt : Value → List String → Bool
  | _, [] => false
  | VDict d, k :: rest =>
    match assocLookup d k with
    | some v => !v.isNull && absentAt v rest
    | none => true
  | _, _ :: _ => false

/-- The traversal proceeds through present non-null mapping entries until a
step whose retrieved value is an explicit null. -/
def hitsNull : Value → List String → Bool
  | _, [] => false
  | VDict d, k :: rest =>
    match assocLookup d k with
    | some v => if v.isNull then true else hitsNull v rest
    | none => false
  | _, _ :: _ => false

/-- The traversal proceeds through present non-null mapping entries until,
with segments still remaining, the current value is not a mapping. -/
def hitsNonDict : Value → List String → Bool
  | _, [] => false
  | VDict d, k :: rest =>
    match assocLookup d k with
    | some v => !v.isNull && hitsNonDict v rest
    | none => false
  | v, _ :: _ => !v.isDict

/-- Remove every binding of a key from an association list. -/
def removeKey (d : List (String × Value)) (k : String) : List (String × Value) :=
  d.filter (fun p => p.1 ≠ k)

/-- A filesystem operation performed by `load_config`: an existence check
(`path.exists()`) or an open-and-parse (`open` + `yaml.safe_load`). -/
inductive FSOp : Type where
  | check : String → FSOp
  | readOp : String → FSOp
deriving DecidableEq

/-- The fixed search-path list of `load_config` (src/utils/config.py lines
33-37).  `Path("~/...").expanduser()` replaces the tilde with the user home
directory, modelled by the `home` parameter. -/
def configPaths (home : String) : List String :=
  ["config.yml", home ++ "/.config/activist/config.yml", "/etc/activist/config.yml"]

/-- The search loop of `load_config`: check each path in order; at the
first existing path, open and parse it and return its document; if none
exists, raise `FileNotFoundError`.  The filesystem `fs` maps a path to its
parsed contents (`none` when the path does not exist); the returned list is
the trace of filesystem operations performed. -/
def loadFrom (fs : String → Option Value) : List String → Except String Value × List FSOp
  | [] => (Except.error "No configuration file found", [])
  | p :: rest =>
    match fs p with
    | some v => (Except.ok v, [FSOp.check p, FSOp.readOp p])
    | none =>
      let r := loadFrom fs rest
      (r.1, FSOp.check p :: r.2)

/-- `Config.load_config`: run the search loop over the three candidate
paths. -/
def load_config (fs : String → Option Value) (home : String) : Except String Value × List FSOp :=
  loadFrom fs (configPaths home)

/-- The process-wide class state of `Config`: whether `_instance` has been
created, and `_config`, which is Python `None` (`VNull`) until a document
is stored. -/
structure ConfigState : Type where
  _instance : Bool
  _config : Value

/-- The state of a fresh process: no instance, no document. -/
def initState : ConfigState :=
  ⟨false, VNull⟩

/-- The observable result of one `Config()` construction: normal return or
a propagated exception, the class state afterwards, and the filesystem
operations performed. -/
structure Outcome : Type where
  result : Except String Unit
  state : ConfigState
  trace : List FSOp

/-- One `Config()` call: `__new__` creates the instance if absent, then
`__init__` runs `load_config` exactly when `_config is None`.  On a failed
search the `FileNotFoundError` propagates and `_config` stays `None`. -/
def construct (fs : String → Option Value) (home : String) (st : ConfigState) : Outcome :=
  if st._config.isNull then
    match load_config fs home with
    | (Except.ok v, t) => ⟨Except.ok (), ⟨true, v⟩, t⟩
    | (Except.error e, t) => ⟨Except.error e, ⟨true, st._config⟩, t⟩
  else ⟨Except.ok (), ⟨true, st._config⟩, []⟩

/-- `Config.get` at the state level: it reads `self._config` and works on
locals only, so it returns the class state unchanged and performs no
filesystem operations. -/
def getS (st : ConfigState) (path : String) (dflt : Value) : Value × ConfigState × List FSOp :=
  (Config.get st._config path dflt, st, [])

/-- `n` successive `Config()` calls, accumulating the filesystem trace. -/
def runConstructs (fs : String → Option Value) (home : String) : Nat → ConfigState → ConfigState × List FSOp
  | 0, st => (st, [])
  | n + 1, st =>
    let o := construct fs home st
    let r := runConstructs fs home n o.state
    (r.1, o.trace ++ r.2)

/-- Whether a filesystem operation is an open-and-parse. -/
def isRead : FSOp → Bool
  | FSOp.readOp _ => true
  | FSOp.check _ => false

/-- Number of open-and-parse operations in a trace. -/
def countReads (t : List FSOp) : Nat :=
  (t.filter isRead).length

/-- Example filesystem: a non-null document at the project-local path. -/
def fsGood : String → Option Value :=
  fun p => if p = "config.yml" then some (VDict [("k", VInt 1)]) else none

/-- Example filesystem: a document parsing to null (e.g. an empty YAML
file) at the project-local path. -/
def fsNullDoc : String → Option Value :=
  fun p => if p = "config.yml" then some VNull else none

/-- Example filesystem: no candidate path exists. -/
def fsEmpty : String → Option Value :=
  fun _ => none

/-- Example filesystem: only the per-user path exists. -/
def fsUser : String → Option Value :=
  fun p => if p = "/home/u/.config/activist/config.yml" then some (VDict []) else none

theorem getGo_roundtrip : ∀ (keys : List String) (value v dflt : Value),
    presentNonNull value keys = true → storedAt value keys = some v →
    getGo value keys dflt = v := by
  intro keys
  induction keys with
  | nil =>
    intro value v dflt _ hs
    simpa [storedAt, getGo] using hs
  | cons k rest ih =>
    intro value v dflt hp hs
    cases value with
    | VDict d =>
      cases hl : assocLookup d k with
      | none => simp [presentNonNull, hl] at hp
      | some w =>
        simp only [presentNonNull, hl, Bool.and_eq_true, Bool.not_eq_true'] at hp
        simp only [storedAt, hl] at hs
        simp only [getGo, dictGet, hl, Option.getD_some, hp.1, if_false]
        exact ih w v dflt hp.2 hs
    | VNull => simp [presentNonNull] at hp
    | VBool b => simp [presentNonNull] at hp
    | VInt n => simp [presentNonNull] at hp
    | VStr s => simp [presentNonNull] at hp
    | VList xs => simp [presentNonNull] at hp

theorem getGo_nondict_self : ∀ (rest : List String) (dflt : Value),
    dflt.isDict = false → getGo dflt rest dflt = dflt := by
  intro rest dflt hd
  cases rest with
  | nil => rfl
  | cons k rs =>
    cases dflt with
    | VDict d => simp [Value.isDict] at hd
    | VNull => rfl
    | VBool b => rfl
    | VInt n => rfl
    | VStr s => rfl
    | VList xs => rfl

theorem getGo_absent_nondict : ∀ (keys : List String) (value dflt : Value),
    absentAt value keys = true → dflt.isDict = false →
    getGo value keys dflt = dflt := by
  intro keys
  induction keys with
  | nil => intro value dflt ha _; simp [absentAt] at ha
  | cons k rest ih =>
    intro value dflt ha hd
    cases value with
    | VDict d =>
      cases hl : assocLookup d k with
      | none =>
        cases hn : dflt.isNull with
        | true => simp [getGo, dictGet, hl, hn]
        | false =>
          simp only [getGo, dictGet, hl, Option.getD_none, hn, Bool.false_eq_true, if_false]
          exact getGo_nondict_self rest dflt hd
      | some w =>
        simp only [absentAt, hl, Bool.and_eq_true, Bool.not_eq_true'] at ha
        simp only [getGo, dictGet, hl, Option.getD_some, ha.1, if_false]
        exact ih w dflt ha.2 hd
    | VNull => simp [absentAt] at ha
    | VBool b => simp [absentAt] at ha
    | VInt n => simp [absentAt] at ha
    | VStr s => simp [absentAt] at ha
    | VList xs => simp [absentAt] at ha

theorem getGo_hitsNull : ∀ (keys : List String) (value dflt : Value),
    hitsNull value keys = true → getGo value keys dflt = dflt := by
  intro keys
  induction keys with
  | nil => intro value dflt h; simp [hitsNull] at h
  | cons k rest ih =>
    intro value dflt h
    cases value with
    | VDict d =>
      cases hl : assocLookup d k with
      | none => simp [hitsNull, hl] at h
      | some w =>
        cases hn : w.isNull with
        | true => simp [getGo, dictGet, hl, hn]
        | false =>
          simp only [hitsNull, hl, hn, Bool.false_eq_true, if_false] at h
          simp only [getGo, dictGet, hl, Option.getD_some, hn, Bool.false_eq_true, if_false]
          exact ih w dflt h
    | VNull => simp [hitsNull] at h
    | VBool b => simp [hitsNull] at h
    | VInt n => simp [hitsNull] at h
    | VStr s => simp [hitsNull] at h
    | VList xs => simp [hitsNull] at h

theorem assocLookup_removeKey (d : List (String × Value)) (k : String) :
    assocLookup (removeKey d k) k = none := by
  induction d with
  | nil => rfl
  | cons p rest ih =>
    by_cases hp : p.1 = k
    · simpa [removeKey, hp] using ih
    · simpa [removeKey, assocLookup, hp] using ih

theorem getGo_null_vs_removed (d : List (String × Value)) (k : String)
    (rest : List String) (dflt : Value)
    (hk : assocLookup d k = some VNull) (hd : dflt.isDict = false) :
    getGo (VDict d) (k :: rest) dflt = getGo (VDict (removeKey d k)) (k :: rest) dflt := by
  have h1 : getGo (VDict d) (k :: rest) dflt = dflt := by
    simp [getGo, dictGet, hk, Value.isNull]
  have h2 : getGo (VDict (removeKey d k)) (k :: rest) dflt = dflt := by
    cases hn : dflt.isNull with
    | true => simp [getGo, dictGet, assocLookup_removeKey, hn]
    | false =>
      simp only [getGo, dictGet, assocLookup_removeKey, Option.getD_none, hn,
        Bool.false_eq_true, if_false]
      exact getGo_nondict_self rest dflt hd
  rw [h1, h2]

theorem getGoE_eq_ok : ∀ (keys : List String) (value dflt : Value),
    getGoE value keys dflt = Except.ok (getGo value keys dflt) := by
  intro keys
  induction keys with
  | nil => intro value dflt; rfl
  | cons k rest ih =>
    intro value dflt
    cases value with
    | VDict d =>
      cases hn : (dictGet d k dflt).isNull with
      | true => simp [getGoE, getGo, methodGet, Value.isDict, hn]
      | false => simp [getGoE, getGo, methodGet, Value.isDict, hn, ih]
    | VNull => rfl
    | VBool b => rfl
    | VInt n => rfl
    | VStr s => rfl
    | VList xs => rfl

theorem getGo_hitsNonDict : ∀ (keys : List String) (value dflt : Value),
    hitsNonDict value keys = true → getGo value keys dflt = dflt := by
  intro keys
  induction keys with
  | nil => intro value dflt h; simp [hitsNonDict] at h
  | cons k rest ih =>
    intro value dflt h
    cases value with
    | VDict d =>
      cases hl : assocLookup d k with
      | none => simp [hitsNonDict, hl] at h
      | some w =>
        simp only [hitsNonDict, hl, Bool.and_eq_true, Bool.not_eq_true'] at h
        simp only [getGo, dictGet, hl, Option.getD_some, h.1, Bool.false_eq_true, if_false]
        exact ih w dflt h.2
    | VNull => rfl
    | VBool b => rfl
    | VInt n => rfl
    | VStr s => rfl
    | VList xs => rfl

theorem countReads_append (a b : List FSOp) :
    countReads (a ++ b) = countReads a + countReads b := by
  simp [countReads, List.filter_append]

theorem countReads_map_check (ps : List String) :
    countReads (ps.map FSOp.check) = 0 := by
  induction ps with
  | nil => rfl
  | cons p rest ih => simp [countReads, isRead]

theorem loadFrom_all_none (fs : String → Option Value) :
    ∀ ps : List String, (∀ p ∈ ps, fs p = none) →
    loadFrom fs ps = (Except.error "No configuration file found", ps.map FSOp.check) := by
  intro ps
  induction ps with
  | nil => intro _; rfl
  | cons p rest ih =>
    intro hall
    have hp : fs p = none := hall p (List.mem_cons_self p rest)
    have hr := ih fun q hq => hall q (List.mem_cons_of_mem p hq)
    simp [loadFrom, hp, hr]

theorem loadFrom_cases (fs : String → Option Value) :
    ∀ ps : List String,
    ((loadFrom fs ps).1 = Except.error "No configuration file found"
      ∧ countReads (loadFrom fs ps).2 = 0 ∧ ∀ p ∈ ps, fs p = none)
    ∨ (∃ p v, fs p = some v ∧ (loadFrom fs ps).1 = Except.ok v
        ∧ countReads (loadFrom fs ps).2 = 1) := by
  intro ps
  induction ps with
  | nil => exact Or.inl ⟨rfl, rfl, by simp⟩
  | cons p rest ih =>
    cases hp : fs p with
    | some v =>
      exact Or.inr ⟨p, v, hp, by simp [loadFrom, hp], by simp [loadFrom, hp, countReads, isRead]⟩
    | none =>
      rcases ih with ⟨he, hc, hall⟩ | ⟨q, v, hq, hok, hc⟩
      · refine Or.inl ⟨by simpa [loadFrom, hp] using he, ?_, ?_⟩
        · simpa [loadFrom, hp, countReads, isRead] using hc
        · intro r hr
          rcases List.mem_cons.mp hr with h | h
          · exact h ▸ hp
          · exact hall r h
      · refine Or.inr ⟨q, v, hq, by simpa [loadFrom, hp] using hok, ?_⟩
        simpa [loadFrom, hp, countReads, isRead] using hc

theorem construct_noop (fs : String → Option Value) (home : String) (st : ConfigState)
    (h : st._config.isNull = false) :
    construct fs home st = ⟨Except.ok (), ⟨true, st._config⟩, []⟩ := by
  simp [construct, h]

theorem runConstructs_loaded (fs : String → Option Value) (home : String) :
    ∀ (n : Nat) (st : ConfigState), st._config.isNull = false →
    countReads (runConstructs fs home n st).2 = 0 := by
  intro n
  induction n with
  | zero => intro st _; rfl
  | succ m ih =>
    intro st h
    have hc := construct_noop fs home st h
    simp only [runConstructs, hc]
    simpa [countReads] using ih ⟨true, st._config⟩ h

theorem runConstructs_error (fs : String → Option Value) (home : String)
    (hall : ∀ p ∈ configPaths home, fs p = none) :
    ∀ (n : Nat) (st : ConfigState), st._config.isNull = true →
    countReads (runConstructs fs home n st).2 = 0 := by
  have hload := loadFrom_all_none fs (configPaths home) hall
  intro n
  induction n with
  | zero => intro st _; rfl
  | succ m ih =>
    intro st h
    have hc : construct fs home st
        = ⟨Except.error "No configuration file found", ⟨true, st._config⟩,
            (configPaths home).map FSOp.check⟩ := by
      simp [construct, h, load_config, hload]
    simp only [runConstructs, hc]
    rw [countReads_append, countReads_map_check]
    simpa using ih ⟨true, st._config⟩ h

theorem runConstructs_reads_le_one (fs : String → Option Value) (home : String)
    (hfs : ∀ p v, fs p = some v → v.isNull = false) :
    ∀ n : Nat, countReads (runConstructs fs home n initState).2 ≤ 1 := by
  intro n
  rcases loadFrom_cases fs (configPaths home) with ⟨he, hc, hall⟩ | ⟨p, v, hp, hok, hc⟩
  · rw [runConstructs_error fs home hall n initState rfl]
    exact Nat.zero_le 1
  · cases n with
    | zero => exact Nat.zero_le 1
    | succ m =>
      have hnn : v.isNull = false := hfs p v hp
      cases hlc : loadFrom fs (configPaths home) with
      | mk r t =>
        rw [hlc] at hok hc
        simp only at hok hc
        subst hok
        have hcon : construct fs home initState = ⟨Except.ok (), ⟨true, v⟩, t⟩ := by
          simp [construct, initState, load_config, hlc, Value.isNull]
        simp only [runConstructs, hcon]
        rw [countReads_append, hc, runConstructs_loaded fs home m ⟨true, v⟩ hnn]

/-- Claim C1: round-trip fidelity.  For every loaded document and every
dotted path all of whose segments are present as mapping keys with
non-null values along the way, `get(path)` returns exactly the value
stored at that path, whatever its shape (the statement quantifies over the
stored value `v`, so it covers strings, numbers, booleans, nested mappings
and sequences alike; `dflt` is arbitrary, covering the no-default call
`dflt = VNull` in particular). -/
theorem config_get_roundtrip (doc : Value) (path : String) (v dflt : Value)
    (hp : presentNonNull doc (splitDot path) = true)
    (hs : storedAt doc (splitDot path) = some v) :
    Config.get doc path dflt = v :=
  getGo_roundtrip (splitDot path) doc v dflt hp hs

/-- Witness for C1: on the document `{"app": {"debug": true, "name": "x",
"ports": [1, 2]}}` the paths `app.debug` and `app.ports` round-trip a
boolean and a sequence. -/
theorem config_get_roundtrip_witness :
    presentNonNull
      (VDict [("app", VDict [("debug", VBool true), ("name", VStr "x"),
        ("ports", VList [VInt 1, VInt 2])])]) (splitDot "app.debug") = true
    ∧ Config.get
        (VDict [("app", VDict [("debug", VBool true), ("name", VStr "x"),
          ("ports", VList [VInt 1, VInt 2])])]) "app.debug" VNull = VBool true
    ∧ Config.get
        (VDict [("app", VDict [("debug", VBool true), ("name", VStr "x"),
          ("ports", VList [VInt 1, VInt 2])])]) "app.ports" VNull
        = VList [VInt 1, VInt 2] :=
  ⟨by decide,
   config_get_roundtrip _ "app.debug" _ _ (by decide) rfl,
   config_get_roundtrip _ "app.ports" _ _ (by decide) rfl⟩

/-- Claim C2, counterexample.  The claim says that once a document has been
successfully loaded no further filesystem check or read ever occurs.  With
a document that parses to null (an empty YAML file), the load succeeds
(the construction returns normally), yet `_config` is left as Python
`None`, so the next construction checks and reads the filesystem again:
two reads occur in two constructions. -/
theorem config_singleton_null_reload_cex :
    (construct fsNullDoc "/home/u" initState).result = Except.ok ()
    ∧ (construct fsNullDoc "/home/u" (construct fsNullDoc "/home/u" initState).state).trace
        = [FSOp.check "config.yml", FSOp.readOp "config.yml"]
    ∧ countReads (runConstructs fsNullDoc "/home/u" 2 initState).2 = 2 :=
  ⟨rfl, rfl, rfl⟩

/-- Claim C2, amended: once a non-null document has been loaded, every
subsequent construction returns the same already-loaded document and
performs no filesystem existence check or read; and provided every
document on disk parses to a non-null value, at most one open-and-parse
ever occurs per process, over any number of constructions. -/
theorem config_singleton_load_once (fs : String → Option Value) (home : String)
    (hfs : ∀ p v, fs p = some v → v.isNull = false) :
    (∀ st : ConfigState, st._config.isNull = false →
        construct fs home st = ⟨Except.ok (), ⟨true, st._config⟩, []⟩)
    ∧ (∀ n : Nat, countReads (runConstructs fs home n initState).2 ≤ 1) :=
  ⟨fun st h => construct_noop fs home st h, runConstructs_reads_le_one fs home hfs⟩

/-- Witness for the amended C2: with a non-null project-local document, a
loaded state is returned unchanged with an empty trace, and three
constructions in a row perform at most one read. -/
theorem config_singleton_load_once_witness :
    (construct fsGood "/home/u" ⟨true, VDict [("k", VInt 1)]⟩
      = ⟨Except.ok (), ⟨true, VDict [("k", VInt 1)]⟩, []⟩)
    ∧ countReads (runConstructs fsGood "/home/u" 3 initState).2 ≤ 1 := by
  have hfs : ∀ p v, fsGood p = some v → v.isNull = false := by
    intro p v hp
    unfold fsGood at hp
    split at hp
    · cases hp; rfl
    · cases hp
  have h := config_singleton_load_once fsGood "/home/u" hfs
  exact ⟨h.1 ⟨true, VDict [("k", VInt 1)]⟩ rfl, h.2 3⟩

/-- Claim C3: search-path precedence.  `load_config` evaluates exactly the
three candidate locations in the fixed order (project-local `config.yml`,
then the tilde-expanded per-user path, then the system-wide path), and
loads and parses the first one whose existence check succeeds, never a
later one: the trace records the checks up to and including the first hit
followed by exactly one read of that path. -/
theorem load_config_search_precedence (fs : String → Option Value) (home : String) :
    configPaths home
      = ["config.yml", home ++ "/.config/activist/config.yml", "/etc/activist/config.yml"]
    ∧ (∀ v, fs "config.yml" = some v →
        load_config fs home
          = (Except.ok v, [FSOp.check "config.yml", FSOp.readOp "config.yml"]))
    ∧ (fs "config.yml" = none →
        ∀ v, fs (home ++ "/.config/activist/config.yml") = some v →
        load_config fs home
          = (Except.ok v,
              [FSOp.check "config.yml", FSOp.check (home ++ "/.config/activist/config.yml"),
               FSOp.readOp (home ++ "/.config/activist/config.yml")]))
    ∧ (fs "config.yml" = none → fs (home ++ "/.config/activist/config.yml") = none →
        ∀ v, fs "/etc/activist/config.yml" = some v →
        load_config fs home
          = (Except.ok v,
              [FSOp.check "config.yml", FSOp.check (home ++ "/.config/activist/config.yml"),
               FSOp.check "/etc/activist/config.yml",
               FSOp.readOp "/etc/activist/config.yml"])) := by
  refine ⟨rfl, ?_, ?_, ?_⟩
  · intro v h1
    simp [load_config, configPaths, loadFrom, h1]
  · intro h1 v h2
    simp [load_config, configPaths, loadFrom, h1, h2]
  · intro h1 h2 v h3
    simp [load_config, configPaths, loadFrom, h1, h2, h3]

/-- Witness for C3: with only the per-user path present, the project-local
path is checked first, then the per-user path is checked and read; the
system-wide path is never touched. -/
theorem load_config_search_precedence_witness :
    load_config fsUser "/home/u"
      = (Except.ok (VDict []),
          [FSOp.check "config.yml", FSOp.check "/home/u/.config/activist/config.yml",
           FSOp.readOp "/home/u/.config/activist/config.yml"]) :=
  (load_config_search_precedence fsUser "/home/u").2.2.1 rfl (VDict []) rfl

/-- Claim C4, counterexample.  The claim says an absent segment makes
`get(path, default)` return exactly the caller-supplied default with no
further traversal.  On the document `{"a": {}}` with path `a.b.c` and the
mapping default `{"c": 7}`, the segment `b` is absent from the mapping
reached at that step, yet the code substitutes the default as the current
value, keeps traversing, and returns `7` — neither the supplied default
nor the null sentinel. -/
theorem config_get_absent_default_cex :
    absentAt (VDict [("a", VDict [])]) (splitDot "a.b.c") = true
    ∧ Config.get (VDict [("a", VDict [])]) "a.b.c" (VDict [("c", VInt 7)]) = VInt 7
    ∧ Config.get (VDict [("a", VDict [])]) "a.b.c" (VDict [("c", VInt 7)])
        ≠ VDict [("c", VInt 7)]
    ∧ Config.get (VDict [("a", VDict [])]) "a.b.c" (VDict [("c", VInt 7)]) ≠ VNull :=
  ⟨by decide, rfl, fun h => Value.noConfusion h, fun h => Value.noConfusion h⟩

/-- Claim C4, amended: when traversal reaches a mapping that lacks the
current segment, the code substitutes the default as the current value;
whenever the caller-supplied default is not a mapping — in particular for
`get(path)` with no default, whose null-sentinel default makes the call
return the sentinel — `get(path, default)` returns exactly the default.  A
mapping-valued default, by contrast, is traversed further through the
remaining segments and the result may come from inside the default. -/
theorem config_get_absent_default (doc : Value) (path : String) (dflt : Value)
    (ha : absentAt doc (splitDot path) = true) (hd : dflt.isDict = false) :
    Config.get doc path dflt = dflt :=
  getGo_absent_nondict (splitDot path) doc dflt ha hd

/-- Witness for the amended C4: on `{"app": {"debug": true}}` the path
`app.missing` with the scalar default `"fallback"` returns `"fallback"`,
and with the null sentinel returns the null sentinel. -/
theorem config_get_absent_default_witness :
    absentAt (VDict [("app", VDict [("debug", VBool true)])])
      (splitDot "app.missing") = true
    ∧ Config.get (VDict [("app", VDict [("debug", VBool true)])]) "app.missing"
        (VStr "fallback") = VStr "fallback"
    ∧ Config.get (VDict [("app", VDict [("debug", VBool true)])]) "app.missing"
        VNull = VNull :=
  ⟨by decide,
   config_get_absent_default _ "app.missing" _ (by decide) rfl,
   config_get_absent_default _ "app.missing" _ (by decide) rfl⟩

/-- Claim C5, counterexample.  The claim says a present-with-null key is
indistinguishable from an absent key.  With the mapping default
`{"b": 5}` and path `a.b`, the document `{"a": null}` yields the default
`{"b": 5}` (null collapse fires), while the document `{}` — key `a`
absent — substitutes the default and traverses into it, yielding `5`: the
two documents are distinguished by `get`. -/
theorem config_get_null_collapse_cex :
    hitsNull (VDict [("a", VNull)]) (splitDot "a.b") = true
    ∧ Config.get (VDict [("a", VNull)]) "a.b" (VDict [("b", VInt 5)])
        = VDict [("b", VInt 5)]
    ∧ Config.get (VDict []) "a.b" (VDict [("b", VInt 5)]) = VInt 5
    ∧ Config.get (VDict [("a", VNull)]) "a.b" (VDict [("b", VInt 5)])
        ≠ Config.get (VDict []) "a.b" (VDict [("b", VInt 5)]) :=
  ⟨by decide, rfl, rfl, fun h => Value.noConfusion h⟩

/-- Claim C5, amended: for every path whose resolved segment value is an
explicit stored null, `get(path, default)` returns the default
immediately, so a legitimately stored null is never returned; and a
present-with-null key is indistinguishable from an absent key whenever the
caller-supplied default is not a mapping (removing the null-valued binding
leaves the result unchanged), though a mapping-valued default can
distinguish the two mid-path. -/
theorem config_get_null_collapse :
    (∀ (doc : Value) (path : String) (dflt : Value),
        hitsNull doc (splitDot path) = true → Config.get doc path dflt = dflt)
    ∧ (∀ (d : List (String × Value)) (k : String) (rest : List String) (dflt : Value),
        assocLookup d k = some VNull → dflt.isDict = false →
        getGo (VDict d) (k :: rest) dflt
          = getGo (VDict (removeKey d k)) (k :: rest) dflt) :=
  ⟨fun doc path dflt h => getGo_hitsNull (splitDot path) doc dflt h,
   fun d k rest dflt hk hd => getGo_null_vs_removed d k rest dflt hk hd⟩

/-- Witness for the amended C5: on `{"a": null}` the path `a` with default
`"fallback"` returns `"fallback"`, and with a scalar default the document
behaves exactly like the one with the binding removed. -/
theorem config_get_null_collapse_witness :
    Config.get (VDict [("a", VNull)]) "a" (VStr "fallback") = VStr "fallback"
    ∧ getGo (VDict [("a", VNull)]) ["a", "b"] (VStr "fallback")
        = getGo (VDict (removeKey [("a", VNull)] "a")) ["a", "b"] (VStr "fallback") :=
  ⟨config_get_null_collapse.1 _ "a" _ (by decide),
   config_get_null_collapse.2 [("a", VNull)] "a" ["b"] (VStr "fallback") rfl rfl⟩

/-- Claim C6: a non-mapping mid-path is a miss, not an error.  For every
path whose traversal reaches a current value that is not a mapping while
segments remain, `get` returns the default, and in the fallible embedding
it returns normally (the `isinstance` guard fires before the method call
that would raise). -/
theorem config_get_nonmapping_miss (doc : Value) (path : String) (dflt : Value)
    (h : hitsNonDict doc (splitDot path) = true) :
    Config.get doc path dflt = dflt ∧ Config.getE doc path dflt = Except.ok dflt := by
  have h1 := getGo_hitsNonDict (splitDot path) doc dflt h
  refine ⟨h1, ?_⟩
  unfold Config.getE
  rw [getGoE_eq_ok, h1]

/-- Witness for C6: on `{"app": {"name": "x"}}` the path `app.name.sub`
crosses the string `"x"` and yields the null sentinel, without error. -/
theorem config_get_nonmapping_miss_witness :
    hitsNonDict (VDict [("app", VDict [("name", VStr "x")])])
      (splitDot "app.name.sub") = true
    ∧ Config.get (VDict [("app", VDict [("name", VStr "x")])]) "app.name.sub" VNull
        = VNull
    ∧ Config.getE (VDict [("app", VDict [("name", VStr "x")])]) "app.name.sub" VNull
        = Except.ok VNull :=
  ⟨by decide,
   (config_get_nonmapping_miss _ "app.name.sub" _ (by decide)).1,
   (config_get_nonmapping_miss _ "app.name.sub" _ (by decide)).2⟩

/-- Claim C7: `ConfigNotFound` atomicity.  When none of the three search
paths exists, the construction fails with the `FileNotFoundError`
propagated to the caller, no document is produced (`_config` stays
`None`), no read is performed, and a later construction on the resulting
state re-attempts exactly the same search. -/
theorem load_config_not_found (fs : String → Option Value) (home : String)
    (st : ConfigState) (hall : ∀ p ∈ configPaths home, fs p = none)
    (hst : st._config = VNull) :
    (construct fs home st).result = Except.error "No configuration file found"
    ∧ (construct fs home st).state._config = VNull
    ∧ countReads (construct fs home st).trace = 0
    ∧ (construct fs home st).trace = (configPaths home).map FSOp.check
    ∧ (construct fs home (construct fs home st).state).result
        = Except.error "No configuration file found"
    ∧ (construct fs home (construct fs home st).state).trace
        = (configPaths home).map FSOp.check := by
  have hload := loadFrom_all_none fs (configPaths home) hall
  have hcon : ∀ s : ConfigState, s._config = VNull →
      construct fs home s
        = ⟨Except.error "No configuration file found", ⟨true, s._config⟩,
            (configPaths home).map FSOp.check⟩ := by
    intro s hs
    simp [construct, hs, load_config, hload, Value.isNull]
  rw [hcon st hst]
  exact ⟨rfl, hst, countReads_map_check _,
    rfl, by rw [hcon ⟨true, st._config⟩ hst], by rw [hcon ⟨true, st._config⟩ hst]⟩

/-- Witness for C7: on the empty filesystem, construction from the fresh
state fails with the error and performs only the three checks. -/
theorem load_config_not_found_witness :
    (construct fsEmpty "/home/u" initState).result
      = Except.error "No configuration file found"
    ∧ (construct fsEmpty "/home/u" initState).state._config = VNull
    ∧ (construct fsEmpty "/home/u" initState).trace
        = (configPaths "/home/u").map FSOp.check := by
  have h := load_config_not_found fsEmpty "/home/u" initState (fun p _ => rfl) rfl
  exact ⟨h.1, h.2.1, h.2.2.2.1⟩

/-- Claim C8: document immutability.  The state-level `get` returns its
result, the class state unchanged, and an empty trace — it mutates nothing
and touches no file — and a construction on a loaded (non-null) state
returns normally with `_config` unchanged. -/
theorem config_document_immutable (fs : String → Option Value) (home : String)
    (st : ConfigState) (path : String) (dflt : Value)
    (h : st._config.isNull = false) :
    getS st path dflt = (Config.get st._config path dflt, st, [])
    ∧ (construct fs home st).state._config = st._config
    ∧ (construct fs home st).result = Except.ok () := by
  refine ⟨rfl, ?_, ?_⟩ <;> rw [construct_noop fs home st h]

/-- Witness for C8: a loaded state with the document `{"k": 1}` is left
untouched by a lookup and by a further construction. -/
theorem config_document_immutable_witness :
    getS ⟨true, VDict [("k", VInt 1)]⟩ "k" VNull
      = (Config.get (VDict [("k", VInt 1)]) "k" VNull, ⟨true, VDict [("k", VInt 1)]⟩, [])
    ∧ (construct fsGood "/home/u" ⟨true, VDict [("k", VInt 1)]⟩).state._config
        = VDict [("k", VInt 1)] :=
  ⟨(config_document_immutable fsGood "/home/u" ⟨true, VDict [("k", VInt 1)]⟩
      "k" VNull rfl).1,
   (config_document_immutable fsGood "/home/u" ⟨true, VDict [("k", VInt 1)]⟩
      "k" VNull rfl).2.1⟩

/-- Claim C9: totality of lookup.  For every document, path, and default,
`get` in the fallible embedding — where calling `.get` on a non-dict
receiver would raise — returns normally with the value computed by the
total embedding: resolution itself never raises. -/
theorem config_get_total (doc : Value) (path : String) (dflt : Value) :
    Config.getE doc path dflt = Except.ok (Config.get doc path dflt) :=
  getGoE_eq_ok (splitDot path) doc dflt

/-- Claim C10: empty-path behaviour.  `get("", default)` splits the empty
string into a single empty-named segment and looks up the key `""` in the
root mapping: it returns the value stored under `""` if present and
non-null, otherwise the default — never the whole document. -/
theorem config_get_empty_path :
    splitDot "" = [""]
    ∧ ∀ (d : List (String × Value)) (dflt : Value),
      Config.get (VDict d) "" dflt
        = (match assocLookup d "" with
           | some v => if v.isNull = true then dflt else v
           | none => dflt) := by
  refine ⟨by decide, ?_⟩
  intro d dflt
  show getGo (VDict d) (splitDot "") dflt = _
  rw [(by decide : splitDot "" = [""])]
  cases hl : assocLookup d "" with
  | some v =>
    cases hn : v.isNull with
    | true => simp [getGo, dictGet, hl, hn]
    | false => simp [getGo, dictGet, hl, hn]
  | none =>
    cases hn : dflt.isNull with
    | true => simp [getGo, dictGet, hl, hn]
    | false => simp [getGo, dictGet, hl, hn]
